import Mathlib

/-!
Verification development for the HTTP request core of a wallet-connect dApp
template: the fetch wrapper (`executeHttpRequest`), its helper utilities
(`validateUrl`, `toApiError`, `serializeRequestBody`, `buildFullUrl`), the
generic `retry` policy, the `createCombinedSignal` cancellation combinator and
the `useApi` / `useApiMutation` hook state machines.

The TypeScript sources are embedded shallowly: untyped JavaScript values are
modelled by the inductive `JsVal`, asynchronous control flow by explicit
traces of events, and the hook's mutable refs by an explicit machine state
stepped over an event list.
-/

namespace DappHttp

/-- Model of an untyped JavaScript value, as far as the error utilities
inspect one: `typeof v === 'object'` holds exactly for `vNull` and `vObj`,
truthiness fails for `vNull`/`vUndefined`/`false`/`0`/`""`, and
`'message' in v` is key membership in an object's field list. -/
inductive JsVal where
  | vNull
  | vUndefined
  | vBool (b : Bool)
  | vNum (n : Int)
  | vStr (s : String)
  | vObj (fields : List (String × JsVal))
  deriving Repr

/-- JavaScript truthiness for the modelled values. -/
def JsVal.truthy : JsVal → Bool
  | .vNull => false
  | .vUndefined => false
  | .vBool b => b
  | .vNum n => n != 0
  | .vStr s => s != ""
  | .vObj _ => true

/-- `typeof v === 'object'` (true for objects and for `null`). -/
def JsVal.typeofObject : JsVal → Bool
  | .vNull => true
  | .vObj _ => true
  | _ => false

/-- `'message' in v` for an object value (false for non-objects, where the
source never asks). -/
def JsVal.hasMessageKey : JsVal → Bool
  | .vObj fields => fields.any (fun p => p.fst == "message")
  | _ => false

/-- The canonical `ApiError` shape from `types`: message, optional HTTP
status and statusText, optional attached payload. -/
structure ApiError where
  message : String
  status : Option Nat
  statusText : Option String
  data : Option JsVal
  deriving Repr

/-- Response metadata that `createApiError` reads off a `Response`. -/
structure RespMeta where
  status : Nat
  statusText : String
  deriving Repr, DecidableEq

/-- `createApiError(message, response?, data?)` from `utils/api.ts`. -/
def createApiError (message : String) (response : Option RespMeta)
    (data : Option JsVal) : ApiError :=
  ⟨message, response.map RespMeta.status, response.map RespMeta.statusText, data⟩

/-- `validateUrl(url)` from `utils/api.ts`: throws
`createApiError('请求URL不能为空')` when the url is empty or
whitespace-only (`!url || url.trim() === ''`, embedded character-wise as
"every character is whitespace" since `String.trim` does not reduce in the
kernel; the `typeof url !== 'string'` disjunct is vacuous in the typed
embedding). -/
def validateUrl (url : String) : Except ApiError Unit :=
  if url == "" || url.toList.all Char.isWhitespace then
    .error (createApiError "请求URL不能为空" none none)
  else
    .ok ()

/-- `toApiError(error)` from `utils/api.ts`, on the untyped value model:
a truthy value of object type with a `message` key is returned unchanged
(`error as ApiError` is a cast, not a conversion); anything else is wrapped
as `createApiError('未知错误', undefined, error)`. The wrapped object is
spelled out as the `JsVal` object `createApiError` builds. -/
def toApiError (error : JsVal) : JsVal :=
  if error.truthy && error.typeofObject && error.hasMessageKey then
    error
  else
    .vObj [("message", .vStr "未知错误"), ("status", .vUndefined),
           ("statusText", .vUndefined), ("data", error)]

/-- `url.startsWith('http')`, embedded as a character-level prefix test
(the byte-level `String.startsWith` does not reduce in the kernel). -/
def startsWithHttp (url : String) : Bool :=
  url.toList.take 4 == "http".toList

/-- `buildFullUrl(url, baseUrl = '')` from `utils/api.ts`. -/
def buildFullUrl (url : String) (baseUrl : String := "") : String :=
  if startsWithHttp url then url else baseUrl ++ url

/-- A request body as `serializeRequestBody` distinguishes bodies:
`undefined`, a `FormData` instance, a `URLSearchParams` instance, a plain
string, a JSON-serializable value, or a value on which `JSON.stringify`
throws (e.g. a circular structure, not representable as a `JsVal`). -/
inductive JsBody where
  | undef
  | formData (id : Nat)
  | urlSearchParams (id : Nat)
  | str (s : String)
  | json (v : JsVal)
  | circular (id : Nat)
  deriving Repr

mutual

/-- `JSON.stringify` on the values it succeeds on. -/
def jsonEncode : JsVal → String
  | .vNull => "null"
  | .vUndefined => "null"
  | .vBool b => if b then "true" else "false"
  | .vNum n => toString n
  | .vStr s => "\"" ++ s ++ "\""
  | .vObj fields => "\x7b" ++ String.intercalate "," (jsonEncodeFields fields) ++ "\x7d"

/-- Field-list encoder for `jsonEncode`. -/
def jsonEncodeFields : List (String × JsVal) → List String
  | [] => []
  | (k, v) :: rest => ("\"" ++ k ++ "\":" ++ jsonEncode v) :: jsonEncodeFields rest

end

/-- `serializeRequestBody(body)` from `utils/api.ts`: `undefined`,
`FormData`, `URLSearchParams` and strings pass through unchanged;
everything else is `JSON.stringify`-ed, and a throwing stringification is
turned into `createApiError('请求体序列化失败')`. -/
def serializeRequestBody (body : JsBody) : Except ApiError JsBody :=
  match body with
  | .undef => .ok .undef
  | .formData i => .ok (.formData i)
  | .urlSearchParams i => .ok (.urlSearchParams i)
  | .str s => .ok (.str s)
  | .json v => .ok (.str (jsonEncode v))
  | .circular _ => .error (createApiError "请求体序列化失败" none none)

section Retry

variable {E A : Type}

/-- One observable action of the `retry` utility from `utils/index.ts`: an
invocation of `fn` (1-indexed attempt number), an `onError(error, attempt)`
callback invocation, or an awaited `setTimeout` delay in milliseconds. -/
inductive RetryEvent (E : Type) where
  | call (attempt : Nat)
  | onErrorCall (e : E) (attempt : Nat)
  | delayWait (ms : Nat)
  deriving Repr, DecidableEq

/-- Result of `retry`: success, the error rethrown from the final attempt,
or the (unreachable for `maxAttempts ≥ 1`) trailing `throw lastError` with
`lastError` still `undefined`. -/
inductive RetryResult (E A : Type) where
  | ok (a : A)
  | err (e : E)
  | errUndefined
  deriving Repr, DecidableEq

/-- The `for (let attempt = 1; attempt <= maxAttempts; attempt++)` loop of
`retry`, with `fn k` the outcome of the `k`-th invocation of `fn`,
`remaining` the number of loop iterations still allowed
(`maxAttempts - attempt + 1` at the top level) and `lastError` the last
caught error. Returns the trace of events alongside the result. -/
def retryLoop (fn : Nat → Except E A) (maxAttempts delayMs : Nat)
    (backoff hasOnError : Bool) :
    (attempt : Nat) → (remaining : Nat) → (lastError : Option E) →
    List (RetryEvent E) × RetryResult E A
  | _, 0, lastError =>
    ([], match lastError with
         | some e => .err e
         | none => .errUndefined)
  | attempt, remaining + 1, _ =>
    match fn attempt with
    | .ok a => ([.call attempt], .ok a)
    | .error e =>
      if attempt == maxAttempts then
        ([.call attempt], .err e)
      else
        let delay := if backoff then delayMs * 2 ^ (attempt - 1) else delayMs
        let here := .call attempt ::
          (if hasOnError then [.onErrorCall e attempt] else []) ++ [.delayWait delay]
        let rest := retryLoop fn maxAttempts delayMs backoff hasOnError
          (attempt + 1) remaining (some e)
        (here ++ rest.1, rest.2)

/-- `retry(fn, { maxAttempts = 3, delayMs = 1000, backoff = true, onError })`
from `utils/index.ts`. `hasOnError` records whether an `onError` callback
was supplied (`if (onError)` in the source). -/
def retry (fn : Nat → Except E A) (maxAttempts : Nat := 3)
    (delayMs : Nat := 1000) (backoff : Bool := true) (hasOnError : Bool := true) :
    List (RetryEvent E) × RetryResult E A :=
  retryLoop fn maxAttempts delayMs backoff hasOnError 1 maxAttempts none

end Retry

section Signals

/-- State of the listener system built by `createCombinedSignal` in
`utils/http.ts` when both an external signal and the timeout controller
exist: the aborted flags of the two source signals and of the fresh
`combinedController`, and whether the one-shot `handleAbort` listener is
currently registered on each source. -/
structure SignalSys where
  extAborted : Bool
  timeoutAborted : Bool
  combAborted : Bool
  extListener : Bool
  timeoutListener : Bool
  deriving Repr, DecidableEq

/-- `createCombinedSignal(signal, timeoutController)` with both arguments
present: a fresh (unaborted) combined controller, and `handleAbort`
registered with `{ once: true }` on both sources, whatever their aborted
state at combination time (`addEventListener` never fires retroactively). -/
def createCombinedSignal (extAborted timeoutAborted : Bool) : SignalSys :=
  ⟨extAborted, timeoutAborted, false, true, true⟩

/-- Events the signal system can undergo after combination: the external
signal aborting, the timeout controller aborting, or the returned `cleanup`
function running. -/
inductive SigEvent where
  | abortExt
  | abortTimeout
  | runCleanup
  deriving Repr, DecidableEq

/-- One event step. An `abort()` on an already-aborted source fires no
`abort` event; otherwise the source flips to aborted and, if `handleAbort`
is still registered there, it fires — aborting the combined controller —
and is dropped (`once: true`). `cleanup` removes the listener from both
sources (`removeEventListener` on an absent listener is a no-op). -/
def sigStep (s : SignalSys) : SigEvent → SignalSys
  | .abortExt =>
    if s.extAborted then s
    else { s with
      extAborted := true
      combAborted := s.combAborted || s.extListener
      extListener := false }
  | .abortTimeout =>
    if s.timeoutAborted then s
    else { s with
      timeoutAborted := true
      combAborted := s.combAborted || s.timeoutListener
      timeoutListener := false }
  | .runCleanup => { s with extListener := false, timeoutListener := false }

/-- Run a list of events from a signal-system state. -/
def sigRun (s : SignalSys) : List SigEvent → SignalSys
  | [] => s
  | e :: rest => sigRun (sigStep s e) rest

end Signals

section Executor

/-- Error thrown by one attempt of the retry loop inside
`executeHttpRequest`: the structured error `handleResponseError` throws on
a non-ok response (a plain object, not an `instanceof Error`), a fetch
rejection with a DOMException named `AbortError` (effective signal
aborted), or a fetch rejection with a `TypeError` (network failure). -/
inductive AttemptError where
  | httpStatus (e : ApiError)
  | abortError
  | networkError (msg : String)
  deriving Repr

/-- A transport-level response as the executor reads it: `ok`, `status`,
`statusText`, and the outcome of `parseResponseData` on it (`none` when
parsing the body per its content type throws). -/
structure HttpResponse where
  ok : Bool
  status : Nat
  statusText : String
  parse : Option JsVal
  deriving Repr

/-- `ApiResponse<T>` (the `headers` field of the source response is opaque
to every claim and elided). -/
structure ApiResponse where
  data : JsVal
  status : Nat
  statusText : String
  deriving Repr

/-- One observable action of `executeHttpRequest`: arming the timeout timer
(`setTimeout(..., timeout)`), a `fetch` invocation for the given 1-indexed
attempt, the retry policy's `onError` log (`logWarn`), an awaited retry
delay, `clearTimeout` and the combined-signal `cleanup()` from the
`finally` block. -/
inductive HttpAction where
  | armTimer (ms : Nat)
  | fetchCall (attempt : Nat)
  | retryLogWarn (attempt : Nat)
  | delayWait (ms : Nat)
  | clearTimer
  | disposeListeners
  deriving Repr, DecidableEq

/-- How the retry policy's events surface as executor actions. -/
def retryEventToAction : RetryEvent AttemptError → HttpAction
  | .call k => .fetchCall k
  | .onErrorCall _ k => .retryLogWarn k
  | .delayWait ms => .delayWait ms

/-- The configuration fields of `ApiConfig` that `executeHttpRequest`
destructures (callbacks and the remaining native-fetch fields only shape
the request object and are elided). -/
structure ApiConfig where
  baseUrl : String := ""
  timeout : Nat := 10000
  retries : Nat := 0
  retryDelay : Nat := 1000
  deriving Repr, DecidableEq

/-- What the executor's single `catch` block can receive: an error from the
retry loop (possibly the unreachable `undefined` rethrow), or the error
`parseResponseData` throws after a successful retry. -/
inductive ExecThrown where
  | attempt (e : AttemptError)
  | attemptUndefined
  | parseFail (e : ApiError)
  deriving Repr

/-- The `catch` block of `executeHttpRequest`: an `AbortError` becomes
`createApiError('请求已取消')`; a `TypeError` (or an `Error` whose message
mentions fetch) becomes `createApiError('网络连接失败，请检查网络状态')`;
the plain `ApiError` objects thrown by `handleResponseError` and
`parseResponseData` are not `instanceof Error` and fall through
`toApiError`, which returns them unchanged; `undefined` is wrapped as an
unknown error. -/
def classifyCaught : ExecThrown → ApiError
  | .attempt .abortError => createApiError "请求已取消" none none
  | .attempt (.networkError _) => createApiError "网络连接失败，请检查网络状态" none none
  | .attempt (.httpStatus e) => e
  | .attemptUndefined => createApiError "未知错误" none (some .vUndefined)
  | .parseFail e => e

/-- `executeHttpRequest(url, config, signal?, body?)` from `utils/http.ts`
as a trace-producing function. `hasExternalSignal` records whether a
caller signal was passed (so `createCombinedSignal` returned a non-null
`cleanup`); `fetchResults k` is the outcome of the `k`-th fetch attempt.
An invalid url throws before the `try`, so no timer is armed, nothing is
fetched and no `finally` cleanup runs. Otherwise the timer is armed once,
the retry policy runs with `maxAttempts = retries + 1`,
`delayMs = retryDelay`, default `backoff = true` and an `onError` logger,
and the `finally` block clears the timer and runs `cleanup` when present. -/
def executeHttpRequest (url : String) (config : ApiConfig)
    (hasExternalSignal : Bool) (fetchResults : Nat → Except AttemptError HttpResponse) :
    List HttpAction × Except ApiError ApiResponse :=
  match validateUrl url with
  | .error e => ([], .error e)
  | .ok _ =>
    let r := retry fetchResults (config.retries + 1) config.retryDelay true true
    let fin := .clearTimer :: (if hasExternalSignal then [.disposeListeners] else [])
    let actions := .armTimer config.timeout :: r.1.map retryEventToAction ++ fin
    match r.2 with
    | .ok resp =>
      match resp.parse with
      | some d => (actions, .ok ⟨d, resp.status, resp.statusText⟩)
      | none =>
        (actions, .error (classifyCaught (.parseFail
          (createApiError "响应数据解析失败" (some ⟨resp.status, resp.statusText⟩) none))))
    | .err e => (actions, .error (classifyCaught (.attempt e)))
    | .errUndefined => (actions, .error (classifyCaught .attemptUndefined))

/-- The transport's contract with the effective cancellation signal: a
`fetch` issued while the effective signal is already aborted rejects with
an `AbortError` instead of producing its underlying result. -/
def fetchWithSignal (effectiveAborted : Bool)
    (raw : Except AttemptError HttpResponse) : Except AttemptError HttpResponse :=
  if effectiveAborted then .error .abortError else raw

end Executor

section Hook

/-- The mutable state a `useApi` / `useApiMutation` hook instance owns, per
`useApiCommon` in `hooks/useApi.ts`: the React state triple
`{data, loading, error}`, the id of the controller `abortControllerRef`
currently points at (`none` = `null`), the set of controller ids whose
`abort()` has been called (a controller's `signal.aborted` flag), the
`isMountedRef` flag, and a counter allocating fresh controller ids. -/
structure HookMachine where
  data : Option JsVal
  loading : Bool
  error : Option ApiError
  current : Option Nat
  abortedIds : List Nat
  mounted : Bool
  nextId : Nat
  deriving Repr

/-- A hook instance right after `useApiCommon` runs: `INITIAL_STATE`
(`{data: null, loading: false, error: null}`), no controller, mounted. -/
def initHook : HookMachine :=
  ⟨none, false, none, none, [], true, 0⟩

/-- `abortControllerRef.current?.abort()`. -/
def abortCurrent (m : HookMachine) : HookMachine :=
  match m.current with
  | some c => { m with abortedIds := c :: m.abortedIds }
  | none => m

/-- The updater returned by `createSafeStateUpdater(currentController)`:
applies `upd` to the state triple only when the hook is still mounted and
`abortControllerRef.current` still is the call's own controller. -/
def safeSetState (cid : Nat) (m : HookMachine)
    (upd : Option JsVal × Bool × Option ApiError → Option JsVal × Bool × Option ApiError) :
    HookMachine :=
  if m.mounted && m.current == some cid then
    let t := upd (m.data, m.loading, m.error)
    { m with data := t.1, loading := t.2.1, error := t.2.2 }
  else m

/-- Outcome of the synchronous prefix of `execute()` (or, identically, of
`mutate()` after its params checks): either the call threw before touching
the controller, or a fresh controller was installed and the transport
(`executeHttpRequest`) was invoked with it. -/
inductive StartResult where
  | rejected (e : ApiError)
  | started (cid : Nat)
  deriving Repr

/-- The synchronous prefix of `execute()` in `useApi`: `validateUrl` —
whose failure is coerced by `toApiError` (the identity on the plain
`ApiError` object `validateUrl` throws), reflected into state under a bare
`isMountedRef` guard, and rethrown — then abort of the previous
controller, installation of a fresh one, and the
`safeSetState({loading: true, error: null})` under the new controller.
Only the `started` branch goes on to call `executeHttpRequest`. -/
def executeStart (url : String) (m : HookMachine) : HookMachine × StartResult :=
  match validateUrl url with
  | .error e =>
    (if m.mounted then { m with error := some e, loading := false } else m, .rejected e)
  | .ok _ =>
    let m1 := abortCurrent m
    let cid := m1.nextId
    let m2 := { m1 with current := some cid, nextId := m1.nextId + 1 }
    (safeSetState cid m2 (fun t => (t.1, true, none)), .started cid)

/-- Events a hook instance undergoes: a call to `execute()`/`mutate(url)`
(its synchronous prefix), the asynchronous resolution or rejection of the
transport promise belonging to controller `cid`, and the `cancel`, `reset`
and unmount effects of `useApiCommon`. -/
inductive HookEvent where
  | startCall (url : String)
  | resolveOk (cid : Nat) (v : JsVal)
  | resolveErr (cid : Nat) (e : ApiError)
  | cancel
  | reset
  | unmount

/-- One step of the hook state machine, from `hooks/useApi.ts`:
`resolveOk`/`resolveErr` first re-check `controller.signal.aborted ||
!isMountedRef.current` (early return / bare rethrow), then go through the
safe updater; the rejection path's `toApiError` is the identity on the
`ApiError` the executor throws. `cancel` aborts the current controller (if
any) and forces `loading: false` under the mounted guard; `reset` restores
`INITIAL_STATE` under the mounted guard; unmount clears the mounted flag
and aborts the current controller. -/
def hookStep (m : HookMachine) : HookEvent → HookMachine
  | .startCall url => (executeStart url m).1
  | .resolveOk cid v =>
    if m.abortedIds.contains cid || !m.mounted then m
    else safeSetState cid m (fun _ => (some v, false, none))
  | .resolveErr cid e =>
    if m.abortedIds.contains cid || !m.mounted then m
    else safeSetState cid m (fun t => (t.1, false, some e))
  | .cancel =>
    match m.current with
    | none => m
    | some c =>
      let m1 := { m with abortedIds := c :: m.abortedIds }
      if m1.mounted then { m1 with loading := false } else m1
  | .reset =>
    if m.mounted then { m with data := none, loading := false, error := none } else m
  | .unmount => abortCurrent { m with mounted := false }

/-- Run a hook instance over a list of events. -/
def hookRun (m : HookMachine) : List HookEvent → HookMachine
  | [] => m
  | e :: rest => hookRun (hookStep m e) rest

/-- The observable React state triple. -/
def hookView (m : HookMachine) : Option JsVal × Bool × Option ApiError :=
  (m.data, m.loading, m.error)

/-- What the promise returned to the caller settles to. -/
inductive CallOutcome where
  | success (v : JsVal)
  | failure (e : ApiError)
  deriving Repr

/-- What the caller of `execute()`/`mutate()` observes when the transport
promise of controller `cid` settles: on the stale/unmounted early path the
raw value is returned (resp. rethrown); on the live path the data is
returned (resp. `toApiError(error)` — the identity here — is thrown).
Both branches are spelled out to mirror the source. -/
def deliverOutcome (m : HookMachine) : HookEvent → Option CallOutcome
  | .resolveOk cid v =>
    if m.abortedIds.contains cid || !m.mounted then some (.success v)
    else some (.success v)
  | .resolveErr cid e =>
    if m.abortedIds.contains cid || !m.mounted then some (.failure e)
    else some (.failure e)
  | _ => none

/-- The id of the controller created by the most recently issued
`execute()`/`mutate()` call of the trace (ignoring calls that failed
validation, which never create a controller), given the next fresh id and
the current controller at the start. -/
def lastIssuedFrom (next : Nat) (cur : Option Nat) : List HookEvent → Option Nat
  | [] => cur
  | .startCall url :: rest =>
    match validateUrl url with
    | .ok _ => lastIssuedFrom (next + 1) (some next) rest
    | .error _ => lastIssuedFrom next cur rest
  | _ :: rest => lastIssuedFrom next cur rest

/-- The most recently issued call's controller id over a trace from the
initial hook state. -/
def lastIssued (tr : List HookEvent) : Option Nat :=
  lastIssuedFrom 0 none tr

end Hook

/-! ### Spec-side predicates used for refinement comparisons -/

/-- The characters strictly before the first occurrence of `://`, if the
separator occurs at all. -/
def beforeSchemeSep : List Char → Option (List Char)
  | [] => none
  | ':' :: '/' :: '/' :: _ => some []
  | c :: rest => (beforeSchemeSep rest).map (fun l => c :: l)

/-- Following the spec's words ("if `url` already has a scheme"): a URL has
a scheme when a nonempty all-alphabetic scheme name is followed by `://`
(e.g. `https://host`, `ftp://host`). Used only to compare the spec's URL
rule against `buildFullUrl`. -/
def specUrlHasScheme (url : String) : Bool :=
  match beforeSchemeSep url.toList with
  | some s => !s.isEmpty && s.all Char.isAlpha
  | none => false

/-- `error && typeof error === 'object' && 'message' in error`, i.e. the
claim's "non-null object with a `message` property", as a predicate on the
value model. -/
def isObjectWithMessage : JsVal → Bool
  | .vObj fields => fields.any (fun p => p.fst == "message")
  | _ => false

/-! ### Theorems -/

/-- The guard of `toApiError` coincides with "non-null object with a
`message` property". -/
theorem toApiError_guard_eq (v : JsVal) :
    (v.truthy && v.typeofObject && v.hasMessageKey) = isObjectWithMessage v := by
  cases v <;>
    simp [JsVal.truthy, JsVal.typeofObject, JsVal.hasMessageKey, isObjectWithMessage]

/-- Claim C7: `serializeRequestBody` is the identity on `undefined`, on
`FormData` instances, on `URLSearchParams` instances and on strings; every
other value is JSON-stringified, and a throwing stringification (circular
structure) yields the ApiError with message `请求体序列化失败` ("request
body serialization failed"). -/
theorem serializeRequestBody_spec :
    serializeRequestBody .undef = .ok .undef ∧
    (∀ i, serializeRequestBody (.formData i) = .ok (.formData i)) ∧
    (∀ i, serializeRequestBody (.urlSearchParams i) = .ok (.urlSearchParams i)) ∧
    (∀ s, serializeRequestBody (.str s) = .ok (.str s)) ∧
    (∀ v, serializeRequestBody (.json v) = .ok (.str (jsonEncode v))) ∧
    (∀ i, serializeRequestBody (.circular i)
      = .error (createApiError "请求体序列化失败" none none)) :=
  ⟨rfl, fun _ => rfl, fun _ => rfl, fun _ => rfl, fun _ => rfl, fun _ => rfl⟩

/-- Claim C8, counterexample: `"httpx"` has no scheme (it does not even
contain a colon), so the claim demands the request URL
`"/api/" ++ "httpx"`; `buildFullUrl` nevertheless uses it verbatim,
because the code tests `url.startsWith('http')`, not the presence of a
scheme. -/
theorem buildFullUrl_scheme_counterexample :
    specUrlHasScheme "httpx" = false ∧
    ("httpx".toList.contains (Char.ofNat 58)) = false ∧
    buildFullUrl "httpx" "/api/" = "httpx" ∧
    buildFullUrl "httpx" "/api/" ≠ "/api/" ++ "httpx" := by
  refine ⟨by decide, by decide, by decide, by decide⟩

/-- Claim C8, amended: for every url and baseUrl, if the url starts with
the literal prefix `"http"` it is used verbatim as the request URL,
otherwise the request URL is the concatenation `baseUrl ++ url`. -/
theorem buildFullUrl_spec (url baseUrl : String) :
    (startsWithHttp url = true → buildFullUrl url baseUrl = url) ∧
    (startsWithHttp url = false → buildFullUrl url baseUrl = baseUrl ++ url) := by
  constructor <;> intro h <;> simp [buildFullUrl, h]

/-- Witness for `buildFullUrl_spec` at concrete inputs. -/
theorem buildFullUrl_spec_witness :
    (startsWithHttp "https://x" = true ∧
      buildFullUrl "https://x" "/api/" = "https://x") ∧
    (startsWithHttp "v1/users" = false ∧
      buildFullUrl "v1/users" "/api/" = "/api/" ++ "v1/users") :=
  ⟨⟨by decide, (buildFullUrl_spec "https://x" "/api/").1 (by decide)⟩,
   ⟨by decide, (buildFullUrl_spec "v1/users" "/api/").2 (by decide)⟩⟩

/-- Claim C10: `toApiError` returns every non-null object that has a
`message` property unchanged (no field is normalized), and wraps every
other value — primitives, `null`, `undefined`, objects without `message` —
into a fresh object with message `未知错误` and the original value
attached as `data`. -/
theorem toApiError_spec (v : JsVal) :
    (isObjectWithMessage v = true → toApiError v = v) ∧
    (isObjectWithMessage v = false → toApiError v =
      .vObj [("message", .vStr "未知错误"), ("status", .vUndefined),
             ("statusText", .vUndefined), ("data", v)]) := by
  constructor <;> intro h <;> simp [toApiError, toApiError_guard_eq, h]

/-- Claim C5: for every empty or whitespace-only url (every invalid url
representable in the typed embedding), the synchronous prefix of
`execute()` rejects with the ValidationError-class ApiError
`请求URL不能为空` ("request URL must not be empty"), reflects the error
into state (forcing `loading` off) whenever the hook is mounted, and stops
before any network activity: the previous controller is not aborted, no
new controller is created, and `executeHttpRequest` — the only place that
arms the timeout timer and invokes fetch — is never entered; indeed on
such a url it would itself throw with an empty action trace. -/
theorem execute_validation_short_circuit (url : String) (m : HookMachine)
    (h : url.toList.all Char.isWhitespace = true) :
    (executeStart url m).2 = .rejected (createApiError "请求URL不能为空" none none) ∧
    (executeStart url m).1.current = m.current ∧
    (executeStart url m).1.nextId = m.nextId ∧
    (executeStart url m).1.abortedIds = m.abortedIds ∧
    (executeStart url m).1.data = m.data ∧
    (m.mounted = true →
      (executeStart url m).1.error = some (createApiError "请求URL不能为空" none none) ∧
      (executeStart url m).1.loading = false) ∧
    (m.mounted = false → (executeStart url m).1 = m) ∧
    (∀ config hasExt f, executeHttpRequest url config hasExt f
      = ([], .error (createApiError "请求URL不能为空" none none))) := by
  have hv : validateUrl url = .error (createApiError "请求URL不能为空" none none) := by
    unfold validateUrl
    rw [h]
    simp
  have hs : executeStart url m
      = (if m.mounted then
          { m with error := some (createApiError "请求URL不能为空" none none),
                   loading := false }
         else m,
         .rejected (createApiError "请求URL不能为空" none none)) := by
    rw [executeStart, hv]
  cases hm : m.mounted <;>
    refine ⟨by rw [hs], by rw [hs]; simp [hm], by rw [hs]; simp [hm],
            by rw [hs]; simp [hm], by rw [hs]; simp [hm],
            fun h2 => by simp_all, fun h2 => by rw [hs]; simp_all,
            fun config hasExt f => by rw [executeHttpRequest, hv]⟩

/-- Witness for `execute_validation_short_circuit` at the empty url and
the initial hook state. -/
theorem execute_validation_short_circuit_witness :
    ("".toList.all Char.isWhitespace = true) ∧
    (executeStart "" initHook).2
      = .rejected (createApiError "请求URL不能为空" none none) ∧
    executeHttpRequest "" ⟨"", 10000, 0, 1000⟩ false (fun _ => .error .abortError)
      = ([], .error (createApiError "请求URL不能为空" none none)) :=
  ⟨by decide, (execute_validation_short_circuit "" initHook (by decide)).1,
   (execute_validation_short_circuit "" initHook
     (by decide)).2.2.2.2.2.2.2 ⟨"", 10000, 0, 1000⟩ false (fun _ => .error .abortError)⟩

/-- Witness for `toApiError_spec`: an object carrying a `message` key
passes through unchanged; a number is wrapped. -/
theorem toApiError_spec_witness :
    (isObjectWithMessage (.vObj [("message", .vStr "boom"), ("status", .vNum 500)]) = true ∧
      toApiError (.vObj [("message", .vStr "boom"), ("status", .vNum 500)])
        = .vObj [("message", .vStr "boom"), ("status", .vNum 500)]) ∧
    (isObjectWithMessage (.vNum 5) = false ∧
      toApiError (.vNum 5) =
        .vObj [("message", .vStr "未知错误"), ("status", .vUndefined),
               ("statusText", .vUndefined), ("data", .vNum 5)]) :=
  ⟨⟨by decide, (toApiError_spec _).1 (by decide)⟩,
   ⟨by decide, (toApiError_spec _).2 (by decide)⟩⟩

section RetryTheorems

variable {E A : Type}

/-- The events of one failing non-final attempt `j`: the `fn` invocation,
the `onError(error, j)` callback, then the awaited backoff delay
(`delayMs * 2^(j-1)` with backoff, `delayMs` without). -/
def failStep (es : Nat → E) (delayMs : Nat) (backoff : Bool) (j : Nat) :
    List (RetryEvent E) :=
  [.call j, .onErrorCall (es j) j,
   .delayWait (if backoff then delayMs * 2 ^ (j - 1) else delayMs)]

/-- Unfolding of `retryLoop` when the first success comes at attempt
`attempt + d`: every earlier attempt fails, producing one `failStep` each,
and the loop stops at the succeeding call. -/
theorem retryLoop_success (fn : Nat → Except E A) (es : Nat → E) (a : A)
    (maxAttempts delayMs : Nat) (backoff : Bool) :
    ∀ (d attempt : Nat) (lastE : Option E),
      1 ≤ attempt →
      attempt + d ≤ maxAttempts →
      (∀ j, attempt ≤ j → j < attempt + d → fn j = .error (es j)) →
      fn (attempt + d) = .ok a →
      retryLoop fn maxAttempts delayMs backoff true attempt
          (maxAttempts + 1 - attempt) lastE
        = ((List.range' attempt d).flatMap (failStep es delayMs backoff)
            ++ [.call (attempt + d)], .ok a) := by
  intro d
  induction d with
  | zero =>
    intro attempt lastE h1 hle _ hok
    rw [Nat.add_zero] at hok
    rw [show maxAttempts + 1 - attempt = (maxAttempts - attempt) + 1 by omega]
    simp [retryLoop, hok]
  | succ d ih =>
    intro attempt lastE h1 hle hfail hok
    have hfa : fn attempt = .error (es attempt) := hfail attempt le_rfl (by omega)
    have hne : attempt ≠ maxAttempts := by omega
    rw [show maxAttempts + 1 - attempt = (maxAttempts - attempt) + 1 by omega]
    have hrec := ih (attempt + 1) (some (es attempt)) (by omega) (by omega)
      (fun j hj1 hj2 => hfail j (by omega) (by omega))
      (by rw [show attempt + 1 + d = attempt + (d + 1) by omega]; exact hok)
    rw [show maxAttempts + 1 - (attempt + 1) = maxAttempts - attempt by omega] at hrec
    simp only [retryLoop, hfa, beq_iff_eq, if_neg hne, hrec, if_true,
      List.range'_succ attempt d 1]
    simp [failStep, show attempt + 1 + d = attempt + (d + 1) by omega]

/-- Unfolding of `retryLoop` when every attempt up to `maxAttempts` fails:
all but the last produce a `failStep`, and the final attempt's error is
rethrown with no trailing callback or delay. -/
theorem retryLoop_allFail (fn : Nat → Except E A) (es : Nat → E)
    (maxAttempts delayMs : Nat) (backoff : Bool) :
    ∀ (d attempt : Nat) (lastE : Option E),
      1 ≤ attempt →
      attempt + d = maxAttempts →
      (∀ j, attempt ≤ j → j ≤ maxAttempts → fn j = .error (es j)) →
      retryLoop fn maxAttempts delayMs backoff true attempt
          (maxAttempts + 1 - attempt) lastE
        = ((List.range' attempt d).flatMap (failStep es delayMs backoff)
            ++ [.call maxAttempts], .err (es maxAttempts)) := by
  intro d
  induction d with
  | zero =>
    intro attempt lastE h1 hle hfail
    have hfa : fn attempt = .error (es attempt) := hfail attempt le_rfl (by omega)
    rw [show maxAttempts + 1 - attempt = (maxAttempts - attempt) + 1 by omega]
    have ha : attempt = maxAttempts := by omega
    subst ha
    simp [retryLoop, hfa]
  | succ d ih =>
    intro attempt lastE h1 hle hfail
    have hfa : fn attempt = .error (es attempt) := hfail attempt le_rfl (by omega)
    have hne : attempt ≠ maxAttempts := by omega
    rw [show maxAttempts + 1 - attempt = (maxAttempts - attempt) + 1 by omega]
    have hrec := ih (attempt + 1) (some (es attempt)) (by omega) (by omega)
      (fun j hj1 hj2 => hfail j (by omega) hj2)
    rw [show maxAttempts + 1 - (attempt + 1) = maxAttempts - attempt by omega] at hrec
    simp only [retryLoop, hfa, beq_iff_eq, if_neg hne, hrec, if_true,
      List.range'_succ attempt d 1]
    simp [failStep]

/-- Claim C2: when `fn` first succeeds at attempt `k ≤ maxAttempts`,
`retry` produces exactly one `failStep` per earlier failing attempt — the
`fn` call, then `onError(error, j)`, then an awaited delay of
`delayMs * 2^(j-1)` when backoff is on and `delayMs` otherwise — and ends
with the succeeding call, returning its result without invoking `fn`
again. In the spec's scenario (`maxAttempts = 3, delayMs = 100,
backoff = true`, two failures) the delays are 100 ms then 200 ms and the
third attempt's result is returned. -/
theorem retry_backoff_spec (fn : Nat → Except E A) (es : Nat → E) (a : A)
    (maxAttempts delayMs : Nat) (backoff : Bool) (k : Nat)
    (hk1 : 1 ≤ k) (hkm : k ≤ maxAttempts)
    (hfail : ∀ j, 1 ≤ j → j < k → fn j = .error (es j))
    (hok : fn k = .ok a) :
    retry fn maxAttempts delayMs backoff true
      = ((List.range' 1 (k - 1)).flatMap (failStep es delayMs backoff)
          ++ [.call k], .ok a) := by
  have h := retryLoop_success fn es a maxAttempts delayMs backoff (k - 1) 1 none
    (le_rfl) (by omega) (fun j hj1 hj2 => hfail j hj1 (by omega))
    (by rw [show 1 + (k - 1) = k by omega]; exact hok)
  rw [show maxAttempts + 1 - 1 = maxAttempts by omega,
      show 1 + (k - 1) = k by omega] at h
  exact h

/-- Witness for `retry_backoff_spec`: the spec's scenario, with `fn`
failing on attempts 1 and 2 and succeeding on attempt 3. -/
theorem retry_backoff_spec_witness :
    retry (fun j => if j < 3 then Except.error j else Except.ok (42 : Nat)) 3 100 true true
      = ([.call 1, .onErrorCall 1 1, .delayWait 100,
          .call 2, .onErrorCall 2 2, .delayWait 200, .call 3], .ok 42) := by
  have h := retry_backoff_spec
    (fun j => if j < 3 then Except.error j else Except.ok (42 : Nat))
    (fun j => j) 42 3 100 true 3 (by omega) (by omega)
    (fun j hj1 hj2 => by simp [hj2]) (by simp)
  simpa [failStep, List.range'] using h

/-- Claim C3: when every attempt fails, `retry` rejects with the error of
the final (`maxAttempts`-th) attempt, and the trace ends at that final
call: the final failure incurs no `onError` callback and no further
delay. -/
theorem retry_exhaustion_spec (fn : Nat → Except E A) (es : Nat → E)
    (maxAttempts delayMs : Nat) (backoff : Bool)
    (hm : 1 ≤ maxAttempts)
    (hfail : ∀ j, 1 ≤ j → j ≤ maxAttempts → fn j = .error (es j)) :
    retry fn maxAttempts delayMs backoff true
      = ((List.range' 1 (maxAttempts - 1)).flatMap (failStep es delayMs backoff)
          ++ [.call maxAttempts], .err (es maxAttempts)) := by
  have h := retryLoop_allFail fn es maxAttempts delayMs backoff (maxAttempts - 1) 1 none
    le_rfl (by omega) hfail
  rw [show maxAttempts + 1 - 1 = maxAttempts by omega] at h
  exact h

/-- Witness for `retry_exhaustion_spec`: the spec's scenario
(`maxAttempts = 2`, always failing): the rejection carries the second
attempt's error, not the first's. -/
theorem retry_exhaustion_spec_witness :
    retry (fun j => (Except.error j : Except Nat Nat)) 2 100 true true
      = ([.call 1, .onErrorCall 1 1, .delayWait 100, .call 2], .err 2) := by
  have h := retry_exhaustion_spec (fun j => (Except.error j : Except Nat Nat))
    (fun j => j) 2 100 true (by omega) (fun j hj1 hj2 => rfl)
  simpa [failStep, List.range'] using h

end RetryTheorems

section ExecutorTheorems

/-- Number of fetch invocations in an executor action trace. -/
def countFetchCalls (tr : List HttpAction) : Nat :=
  tr.countP (fun a => match a with | .fetchCall _ => true | _ => false)

/-- Each failing attempt's mapped `failStep` contains exactly one fetch
invocation. -/
theorem countFetchCalls_failTrace (es : Nat → AttemptError) (delayMs : Nat) (b : Bool) :
    ∀ n s, countFetchCalls
        (((List.range' s n).flatMap (failStep es delayMs b)).map retryEventToAction) = n := by
  intro n
  induction n with
  | zero => intro s; simp [countFetchCalls]
  | succ n ih =>
    intro s
    have key : ∀ l1 l2 : List HttpAction,
        countFetchCalls (l1 ++ l2) = countFetchCalls l1 + countFetchCalls l2 := by
      intro l1 l2
      exact List.countP_append _ l1 l2
    have h1 : countFetchCalls ((failStep es delayMs b s).map retryEventToAction) = 1 := by
      simp [failStep, retryEventToAction, countFetchCalls, List.countP_cons]
    rw [List.range'_succ s n 1, List.flatMap_cons, List.map_append, key, h1, ih (s + 1)]
    omega

/-- Claim C4, counterexample: with `retries = 1` and every fetch attempt
rejecting with a cancellation-triggered `AbortError`, the executor still
performs a second fetch attempt (with an intervening retry delay) before
rejecting with `请求已取消` — the cancellation does not propagate
immediately and is retried like any other failure, contradicting the
claim's "every other error class propagates immediately without further
retry attempts". -/
theorem retry_cancellation_counterexample :
    ((executeHttpRequest "/a" ⟨"", 10000, 1, 100⟩ false
        (fun _ => .error .abortError)).1.contains (.fetchCall 2) = true) ∧
    (executeHttpRequest "/a" ⟨"", 10000, 1, 100⟩ false
        (fun _ => .error .abortError)).1
      = [.armTimer 10000, .fetchCall 1, .retryLogWarn 1, .delayWait 100,
         .fetchCall 2, .clearTimer] ∧
    (executeHttpRequest "/a" ⟨"", 10000, 1, 100⟩ false
        (fun _ => .error .abortError)).2
      = .error (createApiError "请求已取消" none none) :=
  ⟨by decide, by decide, rfl⟩

/-- Claim C4, amended: the retry policy wrapped around the fetch attempt
is class-blind — an `HttpStatusError`, a `NetworkError` and a
cancellation-triggered `AbortError` thrown by an attempt are all retried
alike until `retries + 1` attempts are exhausted (so exactly
`retries + 1` fetch invocations happen), and the error class only
determines the error the executor finally rejects with, classified after
the loop. Validation errors are still raised before the loop and never
retried. -/
theorem executor_retries_all_error_classes (url : String) (config : ApiConfig)
    (hasExt : Bool) (es : Nat → AttemptError)
    (fetchRes : Nat → Except AttemptError HttpResponse)
    (hurl : validateUrl url = .ok ())
    (hfail : ∀ j, 1 ≤ j → j ≤ config.retries + 1 → fetchRes j = .error (es j)) :
    executeHttpRequest url config hasExt fetchRes
      = (.armTimer config.timeout ::
          (((List.range' 1 config.retries).flatMap (failStep es config.retryDelay true)
            ++ [RetryEvent.call (config.retries + 1)]).map retryEventToAction
           ++ .clearTimer :: (if hasExt then [.disposeListeners] else [])),
         .error (classifyCaught (.attempt (es (config.retries + 1))))) ∧
    countFetchCalls (executeHttpRequest url config hasExt fetchRes).1
      = config.retries + 1 := by
  have hr : retry fetchRes (config.retries + 1) config.retryDelay true true
      = ((List.range' 1 config.retries).flatMap (failStep es config.retryDelay true)
          ++ [RetryEvent.call (config.retries + 1)], .err (es (config.retries + 1))) := by
    have h := retry_exhaustion_spec fetchRes es (config.retries + 1) config.retryDelay
      true (by omega) hfail
    simpa using h
  have hmain : executeHttpRequest url config hasExt fetchRes
      = (.armTimer config.timeout ::
          (((List.range' 1 config.retries).flatMap (failStep es config.retryDelay true)
            ++ [RetryEvent.call (config.retries + 1)]).map retryEventToAction
           ++ .clearTimer :: (if hasExt then [.disposeListeners] else [])),
         .error (classifyCaught (.attempt (es (config.retries + 1))))) := by
    rw [executeHttpRequest, hurl]
    simp only [hr]
    rfl
  refine ⟨hmain, ?_⟩
  rw [hmain]
  simp only [countFetchCalls, List.countP_cons, List.map_append, List.countP_append]
  have h1 := countFetchCalls_failTrace es config.retryDelay true config.retries 1
  rw [countFetchCalls] at h1
  rw [h1]
  cases hasExt <;> simp [retryEventToAction, countFetchCalls]

/-- Witness for `executor_retries_all_error_classes`: one retry, every
attempt rejecting with a cancellation abort — two fetch attempts
happen. -/
theorem executor_retries_all_error_classes_witness :
    (validateUrl "/a" = .ok ()) ∧
    countFetchCalls (executeHttpRequest "/a" ⟨"", 10000, 1, 100⟩ false
        (fun _ => .error .abortError)).1 = 2 :=
  ⟨rfl, (executor_retries_all_error_classes "/a" ⟨"", 10000, 1, 100⟩ false
      (fun _ => AttemptError.abortError) (fun _ => .error .abortError) rfl
      (fun _ _ _ => rfl)).2⟩

end ExecutorTheorems

section SignalTheorems

/-- The combined controller's aborted flag is never reset by any event. -/
theorem sigStep_comb_mono (s : SignalSys) (e : SigEvent)
    (h : s.combAborted = true) : (sigStep s e).combAborted = true := by
  cases e <;> simp only [sigStep] <;> first
    | (split <;> simp [h])
    | simp [h]

/-- Monotonicity of the combined aborted flag over a run. -/
theorem sigRun_comb_mono (evs : List SigEvent) :
    ∀ s : SignalSys, s.combAborted = true → (sigRun s evs).combAborted = true := by
  induction evs with
  | nil => intro s h; exact h
  | cons e rest ih => intro s h; exact ih _ (sigStep_comb_mono s e h)

/-- A signal system is armed when the combination can still be fired:
either the combined controller has already aborted, or no source has
aborted yet and `handleAbort` is still registered on both sources. -/
def sigArmed (s : SignalSys) : Prop :=
  s.combAborted = true ∨
    (s.extAborted = false ∧ s.timeoutAborted = false ∧
     s.extListener = true ∧ s.timeoutListener = true)

/-- Every event other than `runCleanup` keeps the system armed. -/
theorem sigStep_armed (s : SignalSys) (e : SigEvent) (he : e ≠ .runCleanup)
    (h : sigArmed s) : sigArmed (sigStep s e) := by
  rcases h with h | ⟨h1, h2, h3, h4⟩
  · exact Or.inl (sigStep_comb_mono s e h)
  · cases e with
    | abortExt => exact Or.inl (by simp [sigStep, h1, h3])
    | abortTimeout => exact Or.inl (by simp [sigStep, h2, h4])
    | runCleanup => exact absurd rfl he

/-- A run without `runCleanup` keeps the system armed. -/
theorem sigRun_armed (evs : List SigEvent) (hno : SigEvent.runCleanup ∉ evs) :
    ∀ s : SignalSys, sigArmed s → sigArmed (sigRun s evs) := by
  induction evs with
  | nil => intro s h; exact h
  | cons e rest ih =>
    intro s h
    exact ih (fun hm => hno (List.mem_cons_of_mem e hm)) _
      (sigStep_armed s e (fun he => hno (he ▸ List.mem_cons_self e rest)) h)

/-- In an armed system, either source's abort event aborts the combined
controller. -/
theorem sigStep_abort_fires (s : SignalSys)
    (e : SigEvent) (he : e ≠ .runCleanup) (h : sigArmed s) :
    (sigStep s e).combAborted = true := by
  rcases h with h | ⟨h1, h2, h3, h4⟩
  · exact sigStep_comb_mono s e h
  · cases e with
    | abortExt => simp [sigStep, h1, h3]
    | abortTimeout => simp [sigStep, h2, h4]
    | runCleanup => exact absurd rfl he

/-- Once a listener is unregistered it never comes back. -/
theorem sigStep_extListener_mono (s : SignalSys) (e : SigEvent)
    (h : s.extListener = false) : (sigStep s e).extListener = false := by
  cases e <;> simp only [sigStep] <;> split <;> simp [h]

/-- Once a listener is unregistered it never comes back. -/
theorem sigStep_timeoutListener_mono (s : SignalSys) (e : SigEvent)
    (h : s.timeoutListener = false) : (sigStep s e).timeoutListener = false := by
  cases e <;> simp only [sigStep] <;> split <;> simp [h]

/-- Unregistered listeners stay unregistered over a run. -/
theorem sigRun_listener_mono (evs : List SigEvent) :
    ∀ s : SignalSys, s.extListener = false → s.timeoutListener = false →
      (sigRun s evs).extListener = false ∧ (sigRun s evs).timeoutListener = false := by
  induction evs with
  | nil => intro s h1 h2; exact ⟨h1, h2⟩
  | cons e rest ih =>
    intro s h1 h2
    exact ih _ (sigStep_extListener_mono s e h1) (sigStep_timeoutListener_mono s e h2)

/-- Runs compose. -/
theorem sigRun_append (evs1 evs2 : List SigEvent) :
    ∀ s : SignalSys, sigRun s (evs1 ++ evs2) = sigRun (sigRun s evs1) evs2 := by
  induction evs1 with
  | nil => intro s; rfl
  | cons e rest ih => intro s; exact ih (sigStep s e)

/-- Claim C6, counterexample: combining when the external signal is
already aborted. The claim demands the effective signal be aborted
("including a source that is already aborted"), but the combined
controller starts unaborted and stays unaborted — the `abort` listeners
never fire retroactively, and a further `abort()` on the already-aborted
source fires no event either. -/
theorem createCombinedSignal_pre_aborted_counterexample :
    (createCombinedSignal true false).extAborted = true ∧
    (createCombinedSignal true false).combAborted = false ∧
    (sigRun (createCombinedSignal true false) [.abortExt]).combAborted = false := by
  refine ⟨rfl, rfl, rfl⟩

/-- Claim C6, amended: when neither source is aborted at combination time,
the combined signal aborts as soon as either source aborts — whichever
fires first — provided cleanup has not run before that abort; and on every
path with a `cleanup()` call, both listeners end (and stay) unregistered,
whether a source fired before it or not. A source that is already aborted
at combination time never aborts the combined signal. -/
theorem createCombinedSignal_spec :
    (∀ (evs1 evs2 : List SigEvent) (e : SigEvent),
      (e = SigEvent.abortExt ∨ e = SigEvent.abortTimeout) →
      SigEvent.runCleanup ∉ evs1 →
      (sigRun (createCombinedSignal false false) (evs1 ++ e :: evs2)).combAborted = true) ∧
    (∀ (s : SignalSys) (evs1 evs2 : List SigEvent),
      (sigRun s (evs1 ++ SigEvent.runCleanup :: evs2)).extListener = false ∧
      (sigRun s (evs1 ++ SigEvent.runCleanup :: evs2)).timeoutListener = false) := by
  constructor
  · intro evs1 evs2 e he hno
    rw [sigRun_append]
    have harmed : sigArmed (sigRun (createCombinedSignal false false) evs1) :=
      sigRun_armed evs1 hno _ (Or.inr ⟨rfl, rfl, rfl, rfl⟩)
    have hne : e ≠ .runCleanup := by rcases he with h | h <;> subst h <;> intro h <;> cases h
    exact sigRun_comb_mono evs2 _ (sigStep_abort_fires _ e hne harmed)
  · intro s evs1 evs2
    rw [sigRun_append]
    exact sigRun_listener_mono evs2 _ (by simp [sigStep]) (by simp [sigStep])

/-- Witness for `createCombinedSignal_spec`: the timeout source aborts
first, then cleanup runs; the combined signal is aborted and no listener
remains. -/
theorem createCombinedSignal_spec_witness :
    (sigRun (createCombinedSignal false false)
      ([] ++ SigEvent.abortTimeout :: [.runCleanup])).combAborted = true ∧
    (sigRun (createCombinedSignal false false)
      ([.abortTimeout] ++ SigEvent.runCleanup :: [])).extListener = false ∧
    (sigRun (createCombinedSignal false false)
      ([.abortTimeout] ++ SigEvent.runCleanup :: [])).timeoutListener = false :=
  ⟨createCombinedSignal_spec.1 [] [.runCleanup] SigEvent.abortTimeout (Or.inr rfl)
     (by simp),
   (createCombinedSignal_spec.2 (createCombinedSignal false false) [.abortTimeout] []).1,
   (createCombinedSignal_spec.2 (createCombinedSignal false false) [.abortTimeout] []).2⟩

end SignalTheorems

section TimeoutTheorems

/-- Retry-loop events never surface as timer actions. -/
theorem retryEventToAction_not_timer (ev : RetryEvent AttemptError) :
    (∀ ms, retryEventToAction ev ≠ .armTimer ms) ∧
    retryEventToAction ev ≠ .clearTimer ∧
    retryEventToAction ev ≠ .disposeListeners := by
  cases ev <;> simp [retryEventToAction]

/-- On a valid url the executor's action trace is exactly: arm the timer,
then the mapped retry-loop events, then the `finally` actions — whatever
the retry result and however the body parses. -/
theorem executeHttpRequest_trace_shape (url : String) (config : ApiConfig)
    (hasExt : Bool) (fetchRes : Nat → Except AttemptError HttpResponse)
    (hurl : validateUrl url = .ok ()) :
    (executeHttpRequest url config hasExt fetchRes).1
      = .armTimer config.timeout ::
          (retry fetchRes (config.retries + 1) config.retryDelay true true).1.map
            retryEventToAction
          ++ .clearTimer :: (if hasExt then [.disposeListeners] else []) := by
  rw [executeHttpRequest, hurl]
  rcases hr : retry fetchRes (config.retries + 1) config.retryDelay true true with ⟨tr, res⟩
  simp only [hr]
  cases res with
  | ok resp => rcases resp with ⟨rok, status, statusText, parse⟩; cases parse <;> rfl
  | err e => rfl
  | errUndefined => rfl

/-- Claim C9: the timeout timer is armed exactly once per
`executeHttpRequest` call, as the first action, before the retry loop; it
is never re-armed between attempts (no retry-loop event is a timer
action), and every exit path ends with the `finally` block's
`clearTimeout` (followed by the listener cleanup when an external signal
was combined) — so the single `timeout` budget spans the whole retry
sequence, delays included. Moreover once the timeout controller aborts
(while its listener is registered, i.e. before cleanup), the effective
combined signal is aborted, and any fetch issued against it rejects with
an `AbortError` rather than completing. -/
theorem executor_timeout_discipline (url : String) (config : ApiConfig)
    (hasExt : Bool) (fetchRes : Nat → Except AttemptError HttpResponse)
    (hurl : validateUrl url = .ok ()) :
    (∃ mid, (executeHttpRequest url config hasExt fetchRes).1
        = .armTimer config.timeout :: mid
            ++ .clearTimer :: (if hasExt then [.disposeListeners] else []) ∧
      ∀ a ∈ mid, (∀ ms, a ≠ .armTimer ms) ∧ a ≠ .clearTimer ∧ a ≠ .disposeListeners) ∧
    (∀ (evs1 evs2 : List SigEvent) (raw : Except AttemptError HttpResponse),
      SigEvent.runCleanup ∉ evs1 →
      fetchWithSignal (sigRun (createCombinedSignal false false)
          (evs1 ++ SigEvent.abortTimeout :: evs2)).combAborted raw
        = .error .abortError) := by
  constructor
  · refine ⟨(retry fetchRes (config.retries + 1) config.retryDelay true true).1.map
        retryEventToAction,
      executeHttpRequest_trace_shape url config hasExt fetchRes hurl, ?_⟩
    intro a ha
    rcases List.mem_map.mp ha with ⟨ev, _, rfl⟩
    exact retryEventToAction_not_timer ev
  · intro evs1 evs2 raw hno
    have harmed : sigArmed (sigRun (createCombinedSignal false false) evs1) :=
      sigRun_armed evs1 hno _ (Or.inr ⟨rfl, rfl, rfl, rfl⟩)
    have hfire := sigStep_abort_fires _ SigEvent.abortTimeout (by intro h; cases h) harmed
    have hcomb := sigRun_comb_mono evs2 _ hfire
    rw [sigRun_append]
    show fetchWithSignal (sigRun (sigStep _ _) evs2).combAborted raw = _
    rw [fetchWithSignal, hcomb]
    rfl

/-- Witness for `executor_timeout_discipline`: a zero-retry call with an
external signal, and a timeout firing right after combination. -/
theorem executor_timeout_discipline_witness :
    (validateUrl "/a" = .ok ()) ∧
    (∃ mid, (executeHttpRequest "/a" ⟨"", 10000, 0, 1000⟩ true
        (fun _ => .ok ⟨true, 200, "OK", some .vNull⟩)).1
        = .armTimer 10000 :: mid
            ++ .clearTimer :: (if true then [.disposeListeners] else []) ∧
      ∀ a ∈ mid, (∀ ms, a ≠ .armTimer ms) ∧ a ≠ .clearTimer ∧ a ≠ .disposeListeners) ∧
    fetchWithSignal (sigRun (createCombinedSignal false false)
        ([] ++ SigEvent.abortTimeout :: [])).combAborted
        (.ok ⟨true, 200, "OK", some .vNull⟩)
      = .error .abortError :=
  ⟨rfl,
   (executor_timeout_discipline "/a" ⟨"", 10000, 0, 1000⟩ true
     (fun _ => .ok ⟨true, 200, "OK", some .vNull⟩) rfl).1,
   (executor_timeout_discipline "/a" ⟨"", 10000, 0, 1000⟩ true
     (fun _ => .ok ⟨true, 200, "OK", some .vNull⟩) rfl).2 [] []
     (.ok ⟨true, 200, "OK", some .vNull⟩) (by simp)⟩

end TimeoutTheorems

section HookTheorems

/-- `abortCurrent` touches only `abortedIds`. -/
theorem abortCurrent_fields (m : HookMachine) :
    (abortCurrent m).current = m.current ∧ (abortCurrent m).nextId = m.nextId ∧
    (abortCurrent m).mounted = m.mounted ∧ (abortCurrent m).data = m.data ∧
    (abortCurrent m).loading = m.loading ∧ (abortCurrent m).error = m.error := by
  cases hc : m.current <;> simp [abortCurrent, hc]

/-- `safeSetState` touches only the state triple. -/
theorem safeSetState_fields (cid : Nat) (m : HookMachine)
    (upd : Option JsVal × Bool × Option ApiError → Option JsVal × Bool × Option ApiError) :
    (safeSetState cid m upd).current = m.current ∧
    (safeSetState cid m upd).nextId = m.nextId ∧
    (safeSetState cid m upd).abortedIds = m.abortedIds ∧
    (safeSetState cid m upd).mounted = m.mounted := by
  rw [safeSetState]
  split <;> simp

/-- A stale `safeSetState` (superseded controller or unmounted hook) is the
identity. -/
theorem safeSetState_stale (cid : Nat) (m : HookMachine)
    (upd : Option JsVal × Bool × Option ApiError → Option JsVal × Bool × Option ApiError)
    (h : m.current ≠ some cid ∨ m.mounted = false) :
    safeSetState cid m upd = m := by
  rw [safeSetState]
  rcases h with h | h
  · rw [if_neg]
    intro hcond
    exact h (by simpa using (Bool.and_elim_right hcond))
  · rw [if_neg]
    intro hcond
    rw [h] at hcond
    simpa using Bool.and_elim_left hcond

/-- A valid `execute()` start installs the fresh controller id and bumps
the allocator; every other event leaves `current` and `nextId` alone. -/
theorem hookStep_ids (m : HookMachine) (e : HookEvent) :
    ((hookStep m e).current, (hookStep m e).nextId)
      = match e with
        | .startCall url =>
          match validateUrl url with
          | .ok _ => (some m.nextId, m.nextId + 1)
          | .error _ => (m.current, m.nextId)
        | _ => (m.current, m.nextId) := by
  cases e with
  | startCall url =>
    cases hv : validateUrl url with
    | ok u =>
      cases u
      have hn := (abortCurrent_fields m).2.1
      simp only [hookStep, executeStart, hv]
      rw [Prod.mk.injEq]
      constructor
      · rw [(safeSetState_fields _ _ _).1]
        simp [hn]
      · rw [(safeSetState_fields _ _ _).2.1]
        simp [hn]
    | error err =>
      simp only [hookStep, executeStart, hv]
      split <;> simp
  | resolveOk cid v =>
    simp only [hookStep]
    split
    · rfl
    · rw [(safeSetState_fields _ _ _).1, (safeSetState_fields _ _ _).2.1]
  | resolveErr cid err =>
    simp only [hookStep]
    split
    · rfl
    · rw [(safeSetState_fields _ _ _).1, (safeSetState_fields _ _ _).2.1]
  | cancel =>
    simp only [hookStep]
    cases hc : m.current
    · simp [hc]
    · simp only [hc]
      split <;> simp
  | reset =>
    simp only [hookStep]
    split <;> simp
  | unmount =>
    simp only [hookStep]
    rw [(abortCurrent_fields _).1, (abortCurrent_fields _).2.1]

/-- The hook's `abortControllerRef.current` always holds the controller of
the most recently issued (validation-passing) call. -/
theorem hookRun_current_lastIssued (tr : List HookEvent) :
    ∀ m : HookMachine, (hookRun m tr).current = lastIssuedFrom m.nextId m.current tr := by
  induction tr with
  | nil => intro m; rfl
  | cons e rest ih =>
    intro m
    have hids := hookStep_ids m e
    rw [Prod.mk.injEq] at hids
    show (hookRun (hookStep m e) rest).current = _
    rw [ih (hookStep m e), hids.1, hids.2]
    cases e with
    | startCall url => cases hv : validateUrl url <;> simp [lastIssuedFrom, hv]
    | resolveOk cid v => rfl
    | resolveErr cid err => rfl
    | cancel => rfl
    | reset => rfl
    | unmount => rfl

/-- A resolution whose controller is stale or whose hook is unmounted is a
complete no-op on the machine. -/
theorem resolve_stale_eq (m : HookMachine) (cid : Nat) (v : JsVal) (e : ApiError)
    (h : m.current ≠ some cid ∨ m.mounted = false) :
    hookStep m (.resolveOk cid v) = m ∧ hookStep m (.resolveErr cid e) = m := by
  constructor <;>
  · simp only [hookStep]
    split
    · rfl
    · exact safeSetState_stale cid m _ h

/-- Claim C1 (single-flight / stale-response suppression): over every
event sequence from a fresh hook instance, (1) a transport resolution or
rejection whose controller is not the current one, or that arrives after
unmount, never mutates the `{data, loading, error}` view; (2) the current
controller is exactly the most recently issued call's controller; (3)
hence any resolution or rejection that does change the view belongs to
the most recently issued call of a still-mounted hook; and (4) the
promise returned to the caller still resolves (resp. rejects) with the
same value on the stale path as on the live path. -/
theorem single_flight_invariant (tr : List HookEvent) (cid : Nat) (v : JsVal)
    (e : ApiError) :
    ((hookRun initHook tr).current ≠ some cid ∨ (hookRun initHook tr).mounted = false →
      hookView (hookStep (hookRun initHook tr) (.resolveOk cid v))
          = hookView (hookRun initHook tr) ∧
      hookView (hookStep (hookRun initHook tr) (.resolveErr cid e))
          = hookView (hookRun initHook tr)) ∧
    ((hookRun initHook tr).current = lastIssued tr) ∧
    (hookView (hookStep (hookRun initHook tr) (.resolveOk cid v))
        ≠ hookView (hookRun initHook tr) →
      (hookRun initHook tr).mounted = true ∧ some cid = lastIssued tr) ∧
    (hookView (hookStep (hookRun initHook tr) (.resolveErr cid e))
        ≠ hookView (hookRun initHook tr) →
      (hookRun initHook tr).mounted = true ∧ some cid = lastIssued tr) ∧
    deliverOutcome (hookRun initHook tr) (.resolveOk cid v) = some (.success v) ∧
    deliverOutcome (hookRun initHook tr) (.resolveErr cid e) = some (.failure e) := by
  have hlast : (hookRun initHook tr).current = lastIssued tr :=
    hookRun_current_lastIssued tr initHook
  have hstale : (hookRun initHook tr).current ≠ some cid ∨
      (hookRun initHook tr).mounted = false →
      hookView (hookStep (hookRun initHook tr) (.resolveOk cid v))
          = hookView (hookRun initHook tr) ∧
      hookView (hookStep (hookRun initHook tr) (.resolveErr cid e))
          = hookView (hookRun initHook tr) := by
    intro h
    have heq := resolve_stale_eq (hookRun initHook tr) cid v e h
    rw [heq.1, heq.2]
    exact ⟨rfl, rfl⟩
  refine ⟨hstale, hlast, ?_, ?_, by simp [deliverOutcome], by simp [deliverOutcome]⟩
  · intro hmut
    by_cases hcur : (hookRun initHook tr).current = some cid
    · cases hm : (hookRun initHook tr).mounted
      · exact absurd (hstale (Or.inr hm)).1 hmut
      · exact ⟨rfl, hcur ▸ hlast ▸ rfl⟩
    · exact absurd (hstale (Or.inl hcur)).1 hmut
  · intro hmut
    by_cases hcur : (hookRun initHook tr).current = some cid
    · cases hm : (hookRun initHook tr).mounted
      · exact absurd (hstale (Or.inr hm)).2 hmut
      · exact ⟨rfl, hcur ▸ hlast ▸ rfl⟩
    · exact absurd (hstale (Or.inl hcur)).2 hmut

/-- Witness for `single_flight_invariant`: two consecutive `execute()`
calls; the first call's controller (id 0) is superseded by the second's
(id 1), and its resolution leaves the state view untouched. -/
theorem single_flight_invariant_witness :
    ((hookRun initHook [.startCall "/a", .startCall "/a"]).current ≠ some 0) ∧
    hookView (hookStep (hookRun initHook [.startCall "/a", .startCall "/a"])
        (.resolveOk 0 (.vNum 7)))
      = hookView (hookRun initHook [.startCall "/a", .startCall "/a"]) :=
  ⟨by decide,
   ((single_flight_invariant [.startCall "/a", .startCall "/a"] 0 (.vNum 7)
      ⟨"boom", none, none, none⟩).1 (Or.inl (by decide))).1⟩

end HookTheorems

end DappHttp

